import Mathlib

set_option maxRecDepth 16000
set_option maxHeartbeats 1000000

/-!
Verification of the `edge/utils` wallet and proof-of-work identity library.

The JavaScript sources under `src/lib/WalletUtils/wallet.js` and
`src/lib/IdentityLib/identity.js` are shallowly embedded below.  Pure string
and arithmetic code is translated directly; the external cryptographic
libraries (`js-sha3`, `crypto-js` SHA-256, `elliptic` secp256k1, `argon2`)
are handled as follows:

* `keccak256` (js-sha3) is implemented concretely and executably, because the
  checksum-address claims need its actual values;
* SHA-256, the secp256k1 sign/recover operations and Argon2id are opaque
  parameters (an `ExternPrims` record); theorems about them carry explicit,
  instance-scoped hypotheses in place of the usual computational
  security assumptions.

JavaScript runtime behaviour that the code exercises (falsiness, strict
equality, property access, string coercion, thrown `TypeError`s) is embedded
by a small `JSVal` value model; `verifyIdentity`'s `try/catch` becomes an
`Except` computation whose errors are mapped to `false`.
-/

namespace EdgeUtils

/-! ## Keccak-256 (js-sha3 `keccak256`, original Keccak padding 0x01)

64-bit lanes are modelled as `Nat` masked to `2^64`.  The state is a list of
25 lanes, lane `(x, y)` stored at index `x + 5 * y`. -/

def mask64 : Nat := 2 ^ 64 - 1

def rotl64 (x n : Nat) : Nat :=
  ((x <<< n) ||| (x >>> (64 - n))) &&& mask64

/-- Walk of the ρ step: starting from lane (1, 0), step `n` visits offset
`(t+1)(t+2)/2 mod 64` and moves to `(y, (2x + 3y) mod 5)`; the result pairs
each visited lane index `x + 5 * y` with its rotation offset. -/
def rhoWalk : Nat → Nat → Nat → List (Nat × Nat)
  | 0, _, _ => []
  | n + 1, x, y =>
    let t := 24 - (n + 1)
    (x + 5 * y, ((t + 1) * (t + 2) / 2) % 64) :: rhoWalk n y ((2 * x + 3 * y) % 5)

/-- Rotation offsets of the ρ step, indexed by lane index `x + 5 * y` (lane
0 keeps offset 0, the walk covers the other 24). -/
def rhoOffsets : List Nat :=
  (List.range 25).map fun i =>
    (((rhoWalk 24 1 0).find? (fun p => p.1 == i)).map (fun p => p.2)).getD 0

/-- One step of the degree-8 LFSR `x^8 + x^6 + x^5 + x^4 + 1` generating the
ι round-constant bits. -/
def lfsrStep (r : Nat) : Nat :=
  let r2 := 2 * r
  if 256 ≤ r2 then r2 ^^^ 0x171 else r2

/-- LFSR state after `t` steps from the initial state 1. -/
def lfsrIter : Nat → Nat
  | 0 => 1
  | t + 1 => lfsrStep (lfsrIter t)

/-- Bit `rc(t)` of the Keccak round-constant sequence. -/
def rcBit (t : Nat) : Nat :=
  lfsrIter t &&& 1

/-- Round constant of round `i`: bits `rc(7i + j)` placed at positions
`2^j - 1`. -/
def keccakRCval (i : Nat) : Nat :=
  (List.range 7).foldl (fun acc j => acc ||| (rcBit (7 * i + j) <<< (2 ^ j - 1))) 0

/-- Round constants of the ι step. -/
def keccakRC : List Nat :=
  (List.range 24).map keccakRCval

def laneAt (st : List Nat) (i : Nat) : Nat := st.getD i 0

def thetaStep (st : List Nat) : List Nat :=
  let col : Nat → Nat := fun x =>
    laneAt st x ^^^ laneAt st (x + 5) ^^^ laneAt st (x + 10) ^^^
      laneAt st (x + 15) ^^^ laneAt st (x + 20)
  let d : Nat → Nat := fun x => col ((x + 4) % 5) ^^^ rotl64 (col ((x + 1) % 5)) 1
  (List.range 25).map fun i => laneAt st i ^^^ d (i % 5)

/-- Combined ρ (rotate) and π (permute) steps: output lane `(x', y')` comes
from input lane `(x, y)` with `y = x'` and `y' = (2x + 3y) mod 5`, i.e.
`x = 3 * (y' + 2x') mod 5` using `2⁻¹ = 3 (mod 5)`. -/
def rhoPiStep (st : List Nat) : List Nat :=
  (List.range 25).map fun j =>
    let xp := j % 5
    let yp := j / 5
    let x := (3 * (yp + 15 - 3 * xp)) % 5
    let src := x + 5 * xp
    rotl64 (laneAt st src) (rhoOffsets.getD src 0)

def chiStep (st : List Nat) : List Nat :=
  (List.range 25).map fun j =>
    let x := j % 5
    let y := j / 5
    laneAt st j ^^^
      ((mask64 ^^^ laneAt st ((x + 1) % 5 + 5 * y)) &&& laneAt st ((x + 2) % 5 + 5 * y))

def iotaStep (rc : Nat) (st : List Nat) : List Nat :=
  (List.range 25).map fun j => if j = 0 then laneAt st 0 ^^^ rc else laneAt st j

def keccakRound (st : List Nat) (rc : Nat) : List Nat :=
  iotaStep rc (chiStep (rhoPiStep (thetaStep st)))

def keccakF (st : List Nat) : List Nat :=
  keccakRC.foldl keccakRound st

/-- Little-endian interpretation of up to eight bytes as a 64-bit lane. -/
def le64 (bs : List Nat) : Nat :=
  bs.foldr (fun b acc => acc * 256 + b) 0

/-- XOR one 136-byte rate block into the first 17 lanes of the state. -/
def xorBlock (st : List Nat) (block : List Nat) : List Nat :=
  (List.range 25).map fun i =>
    if i < 17 then laneAt st i ^^^ le64 ((block.drop (8 * i)).take 8)
    else laneAt st i

/-- Keccak multi-rate padding with domain byte `0x01` (original Keccak, as in
js-sha3's `keccak256`, not the SHA-3 `0x06`). -/
def keccakPad (ms : List Nat) : List Nat :=
  let padLen := 136 - ms.length % 136
  if padLen = 1 then ms ++ [0x81]
  else ms ++ [0x01] ++ List.replicate (padLen - 2) 0 ++ [0x80]

def absorbBlocks : Nat → List Nat → List Nat → List Nat
  | 0, st, _ => st
  | n + 1, st, bs => absorbBlocks n (keccakF (xorBlock st (bs.take 136))) (bs.drop 136)

/-- Absorb a padded message (length a positive multiple of the 136-byte
rate) block by block. -/
def absorb (st : List Nat) (bs : List Nat) : List Nat :=
  absorbBlocks ((bs.length + 135) / 136) st bs

def hexDigitChar (n : Nat) : Char :=
  if n < 10 then Char.ofNat (48 + n) else Char.ofNat (87 + n)

/-- The 32 output bytes (lanes 0-3, little-endian) rendered as lowercase hex. -/
def squeezeHex (st : List Nat) : List Char :=
  (List.range 32).flatMap fun i =>
    let b := (laneAt st (i / 8) >>> (8 * (i % 8))) &&& 255
    [hexDigitChar (b / 16), hexDigitChar (b % 16)]

/-- UTF-8 byte encoding of a character (js-sha3 encodes its string input as
UTF-8; every input in this library is ASCII). -/
def utf8Char (c : Char) : List Nat :=
  let n := c.toNat
  if n < 0x80 then [n]
  else if n < 0x800 then [0xC0 ||| (n >>> 6), 0x80 ||| (n &&& 63)]
  else if n < 0x10000 then
    [0xE0 ||| (n >>> 12), 0x80 ||| ((n >>> 6) &&& 63), 0x80 ||| (n &&& 63)]
  else
    [0xF0 ||| (n >>> 18), 0x80 ||| ((n >>> 12) &&& 63),
     0x80 ||| ((n >>> 6) &&& 63), 0x80 ||| (n &&& 63)]

def utf8Bytes (s : String) : List Nat :=
  s.data.flatMap utf8Char

def keccak256 (s : String) : String :=
  String.mk (squeezeHex (absorb (List.replicate 25 0) (keccakPad (utf8Bytes s))))

/-! ## JavaScript value model

`verifyIdentity` accepts arbitrary JavaScript values, so its input is
embedded as a `JSVal`.  Finite numbers are either exact integers or
non-integral values carried with their rational value (for comparisons) and
their printed form (for string coercion); `NaN` and the infinities are
separate constructors.  Deviations from full ECMAScript, none of which is
reachable by the properties proved below, are noted at each definition. -/

/-- A JavaScript number.  `int` covers integral doubles (printed in plain
decimal; the exponent form used beyond `1e21` is not modelled).  `frac`
covers finite non-integral doubles: `q` is the numeric value, `printed` the
result of `Number::toString` (carried, not recomputed). -/
inductive JSNum
  | nan
  | inf
  | neginf
  | int (i : Int)
  | frac (q : Rat) (printed : String)
deriving DecidableEq

def jsNumRepr : JSNum → String
  | .nan => "NaN"
  | .inf => "Infinity"
  | .neginf => "-Infinity"
  | .int i => toString i
  | .frac _ printed => printed

/-- Value equality of numbers under `===` (`NaN` is unequal to everything). -/
def jsNumValEq : JSNum → JSNum → Bool
  | .nan, _ => false
  | _, .nan => false
  | .inf, .inf => true
  | .inf, _ => false
  | _, .inf => false
  | .neginf, .neginf => true
  | .neginf, _ => false
  | _, .neginf => false
  | .int i, .int j => i == j
  | .int i, .frac q _ => (i : Rat) == q
  | .frac q _, .int j => q == (j : Rat)
  | .frac q _, .frac q' _ => q == q'

inductive JSVal
  | undefined
  | vnull
  | bool (b : Bool)
  | num (n : JSNum)
  | str (s : String)
  | arr (elems : List JSVal)
  | obj (fields : List (String × JSVal))

mutual

def jsToString : JSVal → String
  | .undefined => "undefined"
  | .vnull => "null"
  | .bool true => "true"
  | .bool false => "false"
  | .num n => jsNumRepr n
  | .str s => s
  | .obj _ => "[object Object]"
  | .arr l => jsToStringElems l

/-- JavaScript `Array.prototype.toString`: elements joined by commas, with `undefined`
and `null` elements rendered as the empty string. -/
def jsToStringElems : List JSVal → String
  | [] => ""
  | x :: rest =>
    let hd := match x with
      | .undefined => ""
      | .vnull => ""
      | v => jsToString v
    match rest with
    | [] => hd
    | _ :: _ => hd ++ "," ++ jsToStringElems rest

end

def jsFalsy : JSVal → Bool
  | .undefined => true
  | .vnull => true
  | .bool b => !b
  | .num .nan => true
  | .num (.int i) => i == 0
  | .num (.frac q _) => q == 0
  | .num _ => false
  | .str s => s.data.isEmpty
  | .arr _ => false
  | .obj _ => false

/-- Strict equality `===`.  Arrays and objects compare by reference; the
library never compares a value against itself through two aliases, so
reference equality is embedded as `false` (two mentions are distinct
references in every comparison the code performs). -/
def jsStrictEq : JSVal → JSVal → Bool
  | .undefined, .undefined => true
  | .vnull, .vnull => true
  | .bool a, .bool b => a == b
  | .num a, .num b => jsNumValEq a b
  | .str a, .str b => a == b
  | _, _ => false

/-- Property access on a non-nullish value (total).  Numbers and booleans
have no own properties the library reads; arrays and strings expose
`length`; objects are association lists with distinct keys. -/
def jsProp (v : JSVal) (name : String) : JSVal :=
  match v with
  | .obj fields => ((fields.find? (fun p => p.1 == name)).map (fun p => p.2)).getD .undefined
  | .arr l => if name == "length" then .num (.int l.length) else .undefined
  | .str t => if name == "length" then .num (.int t.length) else .undefined
  | _ => .undefined

inductive JsError
  | typeError
  | assertError
  | libError (msg : String)
deriving DecidableEq

abbrev ExceptJS (α : Type) := Except JsError α

/-- Property access as the program performs it: reading a property of
`null` or `undefined` throws a `TypeError`. -/
def jsGetField (v : JSVal) (name : String) : ExceptJS JSVal :=
  match v with
  | .undefined => .error .typeError
  | .vnull => .error .typeError
  | _ => .ok (jsProp v name)

/-- Indexing `v[i]` with a nonnegative integer index (total; only reached on
non-nullish `v`). -/
def jsIndex (v : JSVal) (i : Nat) : JSVal :=
  match v with
  | .arr l => (l.get? i).getD .undefined
  | .str t =>
    match t.data.get? i with
    | some ch => .str (String.mk [ch])
    | none => .undefined
  | .obj fields => ((fields.find? (fun p => p.1 == Nat.repr i)).map (fun p => p.2)).getD .undefined
  | _ => .undefined

/-- JavaScript `String.prototype.startsWith(t)` (equivalently, `t` is a prefix of the
character list). -/
def jsStartsWith (s t : String) : Bool :=
  t.data.isPrefixOf s.data

/-- JavaScript `String.prototype.trim()` for the ASCII whitespace the library can
encounter (its inputs are hex slices, so trimming never fires). -/
def jsTrim (s : String) : String :=
  String.mk (((s.data.dropWhile Char.isWhitespace).reverse.dropWhile
    Char.isWhitespace).reverse)

/-- JavaScript `ToNumber` on strings, restricted to optionally signed decimal integers
(whitespace-trimmed; empty string is `0`).  Fractional, hex and exponent
literals — reachable only through exotic `length` properties that no proved
property depends on — become `NaN`. -/
def jsParseNumber (t : String) : JSNum :=
  let u := jsTrim t
  if u.data.isEmpty then .int 0
  else match u.data with
    | '-' :: rest =>
      if rest ≠ [] ∧ rest.all Char.isDigit then
        .int (-(rest.foldl (fun acc c => acc * 10 + (c.toNat - 48)) 0 : Nat))
      else .nan
    | l =>
      if l.all Char.isDigit then
        .int (l.foldl (fun acc c => acc * 10 + (c.toNat - 48)) 0 : Nat)
      else .nan

/-- JavaScript `ToNumber` coercion as used by the loop bound comparison. -/
def jsToNumber : JSVal → JSNum
  | .num n => n
  | .undefined => .nan
  | .vnull => .int 0
  | .bool b => .int (if b then 1 else 0)
  | .str t => jsParseNumber t
  | .arr l => jsParseNumber (jsToString (.arr l))
  | .obj _ => .nan

/-- Comparison `i < n` for a nonnegative integer loop counter against a coerced bound. -/
def jsLtNat (i : Nat) (n : JSNum) : Bool :=
  match n with
  | .nan => false
  | .inf => true
  | .neginf => false
  | .int j => (i : Int) < j
  | .frac q _ => (i : Rat) < q

/-! ## Wallet (`src/lib/WalletUtils/wallet.js`) -/

/-- JavaScript `String.prototype.slice(a, b)` for constant nonnegative `a ≤ b` (the only
form the library uses). -/
def jsSlice (s : String) (a b : Nat) : String :=
  String.mk ((s.data.drop a).take (b - a))

/-- JavaScript `String.prototype.slice(a)`. -/
def jsSliceFrom (s : String) (a : Nat) : String :=
  String.mk (s.data.drop a)

/-- JavaScript `String.prototype.toLowerCase()`: character-wise ASCII lowering (all
inputs in this library are ASCII, where JavaScript's locale-free
`toLowerCase` acts exactly character-wise). -/
def jsToLowerCase (s : String) : String :=
  String.mk (s.data.map Char.toLower)

/-- Numeric value of one hex digit; `none` is `parseInt` yielding `NaN`. -/
def hexDigitVal (c : Char) : Option Nat :=
  if '0' ≤ c ∧ c ≤ '9' then some (c.toNat - 48)
  else if 'a' ≤ c ∧ c ≤ 'f' then some (c.toNat - 87)
  else if 'A' ≤ c ∧ c ≤ 'F' then some (c.toNat - 55)
  else none

/-- The checksum loop of `generateChecksumAddress`: position `i` of the body
is uppercased when `parseInt(addrHash[i], 16) >= 8`, and otherwise kept
exactly as it appears in the input (the original case — the code does not
lowercase it).  When the hash is exhausted (`addrHash[i]` is `undefined`)
the comparison with `NaN` is false and the character is kept. -/
def checksumChars : List Char → List Char → List Char
  | [], _ => []
  | a :: as, [] => a :: checksumChars as []
  | a :: as, h :: hs =>
    (if 8 ≤ (hexDigitVal h).getD 0 then a.toUpper else a) :: checksumChars as hs

def generateChecksumAddress (address : String) : String :=
  let addr := jsSliceFrom address 3
  let addrHash := keccak256 (jsToLowerCase addr)
  "xe_" ++ String.mk (checksumChars addr.data addrHash.data)

def isHexChar (c : Char) : Bool :=
  ('0' ≤ c && c ≤ '9') || ('a' ≤ c && c ≤ 'f') || ('A' ≤ c && c ≤ 'F')

/-- The test `/^(xe_[a-fA-F0-9]{40})$/.test(address)`. -/
def matchesAddressRegex (a : String) : Bool :=
  a.data.length == 43 && a.data.take 3 == ['x', 'e', '_']
    && (a.data.drop 3).all isHexChar

def checksumAddressIsValid (address : String) : Bool :=
  if !matchesAddressRegex address then false
  else if !(address == generateChecksumAddress address) then false
  else true

def publicKeyToChecksumAddress (publicKey : String) : String :=
  let hash := keccak256 publicKey
  let addr := "xe_" ++ String.mk (hash.data.drop (hash.data.length - 40))
  generateChecksumAddress addr

/-- The `r`/`s`/`recoveryParam` components produced by `elliptic`'s `ec.sign`
with `canonical: true`: `r` and `s` already serialized by
`BN.toString('hex', 32)` (64 hex characters for any scalar ≥ 2^124), and the
recovery parameter, absent when the library returns none. -/
structure SigParts where
  r : String
  s : String
  recoveryParam : Option Nat

/-- The external cryptographic libraries, kept opaque: crypto-js `SHA256`
(hex digest of a string), `elliptic` secp256k1 key/sign/recover operations,
node `argon2` (raw 32-byte Argon2id digest, rendered in hex), and the
unbounded mining search of `mineSignature` (whose inner loop has no
termination bound — the signer is randomized — so its outcome is opaque).
Fallible operations return `ExceptJS` (a JavaScript exception). -/
structure ExternPrims where
  sha256 : String → String
  privToPub : String → String
  ecSign : String → String → SigParts
  ecRecover : String → String → String → Nat → ExceptJS String
  argon2id : String → String → ExceptJS String
  mine : String → String → Nat → Nat → ExceptJS (String × Nat)

/-- JavaScript `Number.prototype.toString(16)` for a nonnegative integer. -/
def toHexString (n : Nat) : String :=
  String.mk (Nat.toDigits 16 n)

/-- JavaScript `padStart(2, '0')`. -/
def padStart2 (s : String) : String :=
  String.mk (List.replicate (2 - s.data.length) '0') ++ s

def generateSignature (P : ExternPrims) (privateKey msg : String) : String :=
  let msgHash := P.sha256 msg
  let signatureObj := P.ecSign privateKey msgHash
  let r := signatureObj.r
  let s := signatureObj.s
  let i := match signatureObj.recoveryParam with
    | some v => padStart2 (toHexString v)
    | none => ""
  r ++ s ++ i

/-- JavaScript `parseInt(str, 16)`: trim, optional sign, optional `0x`/`0X`, then the
longest hex-digit run; `none` is `NaN`. -/
def parseIntHex (str : String) : Option Int :=
  let t := jsTrim str
  let signed : Int × List Char :=
    match t.data with
    | '-' :: rest => (-1, rest)
    | '+' :: rest => (1, rest)
    | l => (1, l)
  let body : List Char :=
    match signed.2 with
    | '0' :: 'x' :: rest => rest
    | '0' :: 'X' :: rest => rest
    | l => l
  let digits := body.takeWhile (fun c => (hexDigitVal c).isSome)
  if digits.isEmpty then none
  else some (signed.1 * (digits.foldl (fun acc c => acc * 16 + (hexDigitVal c).getD 0) 0 : Nat))

def recoverPublicKeyFromSignedMessage (P : ExternPrims) (msg sig : String) :
    ExceptJS String :=
  let r := jsSlice sig 0 64
  let s := jsSlice sig 64 128
  let recoveryParam := parseIntHex (jsSlice sig 128 130)
  let msgHash := P.sha256 msg
  -- elliptic's recoverPubKey begins with assert((3 & j) === j), which throws
  -- for NaN and for every j outside {0, 1, 2, 3} (negatives included, via
  -- ToInt32); within range the library itself may still throw (ecRecover).
  match recoveryParam with
  | none => .error .assertError
  | some j => if 0 ≤ j ∧ j < 4 then P.ecRecover msgHash r s j.toNat else .error .assertError

/-- The wallet `verifySignatureAddress(msg, signature, address)`.  The address argument
is a `JSVal` because `verifyIdentity` passes the raw destructured field; the
final comparison is `===`. -/
def verifySignatureAddress (P : ExternPrims) (msg sig : String) (address : JSVal) :
    ExceptJS Bool :=
  match recoverPublicKeyFromSignedMessage P msg sig with
  | .error e => .error e
  | .ok publicKey =>
    let derivedAddress := publicKeyToChecksumAddress publicKey
    .ok (jsStrictEq address (.str derivedAddress))

def recoverAddressFromSignedMessage (P : ExternPrims) (msg sig : String) :
    ExceptJS String :=
  match recoverPublicKeyFromSignedMessage P msg sig with
  | .error e => .error e
  | .ok publicKey => .ok (publicKeyToChecksumAddress publicKey)

structure Wallet where
  privateKey : String
  publicKey : String
  address : String

def restoreWalletFromPrivateKey (P : ExternPrims) (privateKey : String) : Wallet :=
  let publicKey := P.privToPub privateKey
  { privateKey := privateKey
    publicKey := publicKey
    address := publicKeyToChecksumAddress publicKey }

/-! ## Identity engine (`src/lib/IdentityLib/identity.js`) -/

/-- The schedule `2 + Math.floor(challenge * 0.4)` clamped to `[2, 4]`.  The binary64
product `challenge * 0.4` floors to `2 * challenge / 5` for every challenge
where the clamp has not saturated (checked exhaustively for
`challenge ≤ 4`; for `challenge ≥ 5` both floors are ≥ 2 and the clamp
yields 4 either way), so integer arithmetic is exact here. -/
def calculateDifficulty (challenge : Nat) : Nat :=
  min (max (2 + 2 * challenge / 5) 2) 4

/-- The helper `argon2idHash(input, salt)`: node-argon2 accepts a string (or Buffer)
password and throws a `TypeError` on anything else; `verifyIdentity` passes
the raw chain value as `input`. -/
def argon2idHash (P : ExternPrims) (input : JSVal) (salt : String) : ExceptJS String :=
  match input with
  | .str s => P.argon2id s salt
  | _ => .error .typeError

def zeroTarget (difficulty : Nat) : String :=
  String.mk (List.replicate difficulty '0')

/-- Fuel for the `for (let i = 0; i < challenges; i++)` loop.  The bound is
re-tested with JavaScript `<` each iteration; the fuel is only an upper
bound on how often the test can succeed.  When the coerced bound is
`Infinity` (reachable only when `s` is an object with an `Infinity`-valued
`length`), indexing `s` past its finitely many own properties yields
`undefined` within `fields.length + 1` iterations and `startsWith` then
throws, so the run still stops within the fuel. -/
def loopFuel (n : JSNum) (s : JSVal) : Nat :=
  match n with
  | .nan => 0
  | .neginf => 0
  | .int j => j.toNat
  | .frac q _ => if q ≤ 0 then 0 else q.num.toNat / q.den + 1
  | .inf =>
    (match s with
     | .arr l => l.length
     | .str t => t.data.length
     | .obj fields => fields.length
     | _ => 0) + 1

def verifyChallengeLoop (P : ExternPrims) (address timestamp s c challenges : JSVal) :
    Nat → Nat → ExceptJS Bool
  | 0, _ => .ok false  -- fuel exhaustion: unreachable, see loopFuel
  | fuel + 1, i =>
    if jsLtNat i (jsToNumber challenges) then
      -- signature.startsWith(target) throws unless s[i] is a string
      match jsIndex s i with
      | .str sigStr =>
        if jsStartsWith sigStr (zeroTarget (calculateDifficulty i)) then
          match argon2idHash P
            (if i = 0 then .str (jsToString address ++ ":" ++ jsToString timestamp)
             else jsIndex s (i - 1))
            ("xe-challenge-" ++ Nat.repr i) with
          | .error e => .error e
          | .ok seedHex =>
            match verifySignatureAddress P (seedHex ++ jsToString (jsIndex c i))
                sigStr address with
            | .error e => .error e
            | .ok false => .ok false
            | .ok true => verifyChallengeLoop P address timestamp s c challenges fuel (i + 1)
        else .ok false
      | _ => .error .typeError
    else .ok true

/-- The body of `verifyIdentity` without its `try/catch`: destructuring
(throws on nullish input), `const challenges = s.length` (throws when `s` is
nullish), the short-circuited structural guard, then the challenge loop. -/
def verifyIdentityBody (P : ExternPrims) (identity : JSVal) : ExceptJS Bool :=
  match identity with
  | .undefined => .error .typeError
  | .vnull => .error .typeError
  | _ =>
    let address := jsProp identity "address"
    let timestamp := jsProp identity "timestamp"
    let s := jsProp identity "s"
    let c := jsProp identity "c"
    match jsGetField s "length" with
    | .error e => .error e
    | .ok challenges =>
      if jsFalsy s then .ok false
      else if jsFalsy c then .ok false
      else if jsFalsy timestamp then .ok false
      else if !jsStrictEq (jsProp s "length") (jsProp c "length") then .ok false
      else if jsStrictEq (jsProp s "length") (.num (.int 0)) then .ok false
      else
        let fuel := loopFuel (jsToNumber challenges) s + 1
        verifyChallengeLoop P address timestamp s c challenges fuel 0

/-- The function `verifyIdentity`: the catch-all converts any thrown error to `false`. -/
def verifyIdentity (P : ExternPrims) (identity : JSVal) : Bool :=
  match verifyIdentityBody P identity with
  | .ok b => b
  | .error _ => false

/-- A well-formed public identity object, as produced by
`getPublicIdentity`/`toJSON`: the four own fields, with string signatures
and numeric solutions. -/
def idObj (address : String) (timestamp : JSNum) (s : List String) (c : List JSNum) : JSVal :=
  .obj [("address", .str address), ("timestamp", .num timestamp),
        ("s", .arr (s.map .str)), ("c", .arr (c.map .num))]

/-- The mutable `Identity` instance behind `addChallenge`: its fields plus
the frozen-ness of the two arrays (`Array.prototype.push` on a frozen array
throws a `TypeError` in strict mode, which ES modules are). -/
structure MutIdentity where
  privateKey : String
  address : String
  timestamp : JSNum
  s : List String
  c : List JSNum
  sFrozen : Bool
  cFrozen : Bool

/-- The method `identity.addChallenge()`: compute the next index, message and
difficulty, run the mining call, then push onto `s` and `c`.  The result is
the final state of the identity together with the error the call raised, if
any (errors propagate to the caller — there is no catch). -/
def addChallenge (P : ExternPrims) (id : MutIdentity) : MutIdentity × Option JsError :=
  let nextIndex := id.s.length
  let difficulty := calculateDifficulty nextIndex
  let message :=
    if nextIndex = 0 then id.address ++ ":" ++ jsNumRepr id.timestamp
    else id.s.getD (id.s.length - 1) ""
  match P.mine id.privateKey message difficulty nextIndex with
  | .error e => (id, some e)
  | .ok (sig, sol) =>
    if id.sFrozen then (id, some .typeError)
    else
      let id1 := { id with s := id.s ++ [sig] }
      if id.cFrozen then (id1, some .typeError)
      else ({ id1 with c := id.c ++ [.int (sol : Int)] }, none)

/-! ## Derived notions used to state the claims -/

/-- The message that link `i` of a chain over `ss` must sign. -/
def chainMessage (address : String) (timestamp : JSNum) (ss : List String) (i : Nat) : String :=
  if i = 0 then address ++ ":" ++ jsNumRepr timestamp else ss.getD (i - 1) ""

def chainSalt (i : Nat) : String :=
  "xe-challenge-" ++ Nat.repr i

/-- All checks `verifyIdentity` performs on link `i` of a well-formed
identity object, as one predicate: the difficulty target, the Argon2id
seeding of the chained message, and the signature/address check over
`seed ++ decimal(c[i])`. -/
def linkVerifies (P : ExternPrims) (address : String) (timestamp : JSNum)
    (ss : List String) (cc : List JSNum) (i : Nat) : Prop :=
  jsStartsWith (ss.getD i "") (zeroTarget (calculateDifficulty i)) = true ∧
  ∃ seed, P.argon2id (chainMessage address timestamp ss i) (chainSalt i) = .ok seed ∧
    verifySignatureAddress P (seed ++ jsNumRepr (cc.getD i .nan)) (ss.getD i "") (.str address)
      = .ok true

/-- Is this JavaScript number a non-negative integer? -/
def jsNumIsNonNegInt : JSNum → Bool
  | .int i => decide (0 ≤ i)
  | _ => false

def flipCase (c : Char) : Char :=
  if c.isUpper then c.toLower else if c.isLower then c.toUpper else c

def flipListAt : Nat → List Char → List Char
  | _, [] => []
  | 0, c :: cs => flipCase c :: cs
  | k + 1, c :: cs => c :: flipListAt k cs

/-- Flip the case of the character at index `k`. -/
def flipCaseAt (s : String) (k : Nat) : String :=
  String.mk (flipListAt k s.data)

/-- The hex digit of the checksum hash governing body position `j` (0 when
the hash has no such position or the character is not a hex digit, matching
the `NaN ≥ 8` comparison). -/
def checksumHashDigit (a : String) (j : Nat) : Nat :=
  (((keccak256 (jsToLowerCase (jsSliceFrom a 3))).data.get? j).bind hexDigitVal).getD 0

/-! ## Concrete instances of the opaque primitives

Witnesses and counterexamples need executable instances of `ExternPrims`.
The instances below simulate the signing oracle: recovery is programmed to
return the honest public key exactly on the digests of the honestly signed
inputs (every other digest recovers a key with a different address), which
is the ideal-functionality behaviour of ECDSA public-key recovery. -/

def toyPub : String := "02toypub"

def toyAddress : String := publicKeyToChecksumAddress toyPub

def toyTimestampNum : JSNum := .int 1700000000000

def toySig0 : String := "00" ++ String.mk (List.replicate 126 'a') ++ "00"

def toySig1 : String := "00" ++ String.mk (List.replicate 126 'b') ++ "00"

def toySig0Alt : String := "00" ++ String.mk (List.replicate 126 'e') ++ "00"

def toyMsg0 : String := toyAddress ++ ":" ++ jsNumRepr toyTimestampNum

def toyInput0 : String := (toyMsg0 ++ "|" ++ "xe-challenge-0") ++ "0"

def toyInput1 : String := (toySig0 ++ "|" ++ "xe-challenge-1") ++ "1"

/-- Argon2id stand-in: total, collision-free by construction. -/
def toyArgon (m salt : String) : ExceptJS String := .ok (m ++ "|" ++ salt)

def toyPrims : ExternPrims :=
  { sha256 := fun m => m
    privToPub := fun k => "02" ++ k
    ecSign := fun _ _ =>
      { r := String.mk (List.replicate 64 'c')
        s := String.mk (List.replicate 64 'd')
        recoveryParam := some 0 }
    ecRecover := fun d _ _ _ =>
      if d = toyInput0 ∨ d = toyInput1 then .ok toyPub else .ok ("junk" ++ d)
    argon2id := toyArgon
    mine := fun _ _ _ _ => .ok (toySig0, 7) }

/-- A two-link identity that verifies under `toyPrims`. -/
def toyIdentity : JSVal :=
  idObj toyAddress toyTimestampNum [toySig0, toySig1] [.int 0, .int 1]

/-- Primitives for the chain-binding counterexample: recovery accepts the
digest of the single honestly mined input regardless of which signature
string carried it (ECDSA recovery does not see any other signature of the
same message as invalid). -/
def c1Prims : ExternPrims :=
  { toyPrims with
    ecRecover := fun d _ _ _ =>
      if d = toyInput0 then .ok toyPub else .ok ("junk" ++ d) }

def c1Identity : JSVal := idObj toyAddress toyTimestampNum [toySig0] [.int 0]

def c1IdentityTampered : JSVal := idObj toyAddress toyTimestampNum [toySig0Alt] [.int 0]

/-- The signature input an adversary signs when planting `c[0] = NaN`:
string concatenation renders the solution as `"NaN"`. -/
def c5Input : String := (toyMsg0 ++ "|" ++ "xe-challenge-0") ++ "NaN"

def c5Prims : ExternPrims :=
  { toyPrims with
    ecRecover := fun d _ _ _ =>
      if d = c5Input then .ok toyPub else .ok ("junk" ++ d) }

/-- An adversarially produced identity whose only solution is `NaN`. -/
def c5Identity : JSVal := idObj toyAddress toyTimestampNum [toySig0] [.nan]

def c6Prims : ExternPrims :=
  { toyPrims with
    ecRecover := fun _ _ _ _ => .ok "02key" }

/-- Identity whose `c` array is frozen while `s` is not. -/
def c8Identity : MutIdentity :=
  { privateKey := "k"
    address := "xe_a"
    timestamp := .int 5
    s := ["00x"]
    c := [.int 0]
    sFrozen := false
    cFrozen := true }

/-- The same identity with both arrays mutable. -/
def c8IdentityOk : MutIdentity :=
  { c8Identity with cFrozen := false }

/-- Sample address for the checksum counterexamples. -/
def addrSample : String := "xe_a1b2c3d4e5f6a7b8c9d0a1b2c3d4e5f6a7b8c9d0"

/-- The sample address with an all-uppercase body. -/
def addrSampleUpper : String := "xe_A1B2C3D4E5F6A7B8C9D0A1B2C3D4E5F6A7B8C9D0"

/-! ## Keccak-256 known-answer tests -/

/-- Known digest of the empty string (the standard Keccak-256 test vector),
validating the permutation, the padding and the constant generation. -/
theorem keccak256_empty_vector :
    keccak256 "" = "c5d2460186f7233c927e7db2dcc703c0e500b653ca82273b7bfad8045d85a470" := by
  decide

/-- Known digest of the string abc (the standard Keccak-256 test vector). -/
theorem keccak256_abc_vector :
    keccak256 "abc" = "4e03657aea45a94fc7d47ba826c8d667c0d1e6e33a64a036ec44f58fa12d6c45" := by
  decide

/-! ## Character-case lemmas (ASCII behaviour of `toUpperCase`/`toLowerCase`) -/

theorem char_toNat_ofNat {n : Nat} (h : n.isValidChar) : (Char.ofNat n).toNat = n := by
  simp [Char.ofNat, dif_pos h, Char.ofNatAux, Char.toNat, UInt32.toNat, BitVec.toNat_ofNatLt]

theorem char_eq_of_toNat_eq {c d : Char} (h : c.toNat = d.toNat) : c = d := by
  have h2 := congrArg Char.ofNat h
  rwa [Char.ofNat_toNat, Char.ofNat_toNat] at h2

theorem isUpper_iff {c : Char} : c.isUpper = true ↔ 65 ≤ c.toNat ∧ c.toNat ≤ 90 := by
  simp [Char.isUpper, UInt32.le_def, BitVec.le_def, Char.toNat, UInt32.toNat]

theorem isLower_iff {c : Char} : c.isLower = true ↔ 97 ≤ c.toNat ∧ c.toNat ≤ 122 := by
  simp [Char.isLower, UInt32.le_def, BitVec.le_def, Char.toNat, UInt32.toNat]

theorem toUpper_toNat (c : Char) :
    c.toUpper.toNat = if 97 ≤ c.toNat ∧ c.toNat ≤ 122 then c.toNat - 32 else c.toNat := by
  by_cases h : 97 ≤ c.toNat ∧ c.toNat ≤ 122
  · simp only [Char.toUpper, if_pos h]
    exact char_toNat_ofNat (n := c.toNat - 32) (Or.inl (by omega))
  · simp only [Char.toUpper, if_neg h]

theorem toLower_toNat (c : Char) :
    c.toLower.toNat = if 65 ≤ c.toNat ∧ c.toNat ≤ 90 then c.toNat + 32 else c.toNat := by
  by_cases h : 65 ≤ c.toNat ∧ c.toNat ≤ 90
  · simp only [Char.toLower, if_pos h]
    exact char_toNat_ofNat (n := c.toNat + 32) (Or.inl (by omega))
  · simp only [Char.toLower, if_neg h]

theorem toUpper_toUpper (c : Char) : c.toUpper.toUpper = c.toUpper := by
  apply char_eq_of_toNat_eq
  rw [toUpper_toNat, toUpper_toNat c]
  split_ifs <;> omega

theorem toLower_toUpper (c : Char) : c.toUpper.toLower = c.toLower := by
  apply char_eq_of_toNat_eq
  rw [toLower_toNat, toUpper_toNat, toLower_toNat]
  split_ifs <;> omega

theorem toLower_toLower (c : Char) : c.toLower.toLower = c.toLower := by
  apply char_eq_of_toNat_eq
  rw [toLower_toNat, toLower_toNat c]
  split_ifs <;> omega

theorem toUpper_toLower (c : Char) : c.toLower.toUpper = c.toUpper := by
  apply char_eq_of_toNat_eq
  rw [toUpper_toNat, toLower_toNat, toUpper_toNat]
  split_ifs <;> omega

theorem isHexChar_iff {c : Char} : isHexChar c = true ↔
    (48 ≤ c.toNat ∧ c.toNat ≤ 57) ∨ (97 ≤ c.toNat ∧ c.toNat ≤ 102)
      ∨ (65 ≤ c.toNat ∧ c.toNat ≤ 70) := by
  simp only [isHexChar, Bool.or_eq_true, Bool.and_eq_true, decide_eq_true_eq,
    Char.le_def, UInt32.le_def, BitVec.le_def, Char.toNat, UInt32.toNat,
    show ('0' : Char).val.toBitVec.toNat = 48 from rfl,
    show ('9' : Char).val.toBitVec.toNat = 57 from rfl,
    show ('a' : Char).val.toBitVec.toNat = 97 from rfl,
    show ('f' : Char).val.toBitVec.toNat = 102 from rfl,
    show ('A' : Char).val.toBitVec.toNat = 65 from rfl,
    show ('F' : Char).val.toBitVec.toNat = 70 from rfl]
  omega

theorem isHexChar_toUpper {c : Char} (h : isHexChar c = true) :
    isHexChar c.toUpper = true := by
  rw [isHexChar_iff] at h ⊢
  rw [toUpper_toNat]
  split_ifs <;> omega

theorem isUpper_toUpper_of_isAlpha {c : Char} (h : c.isAlpha = true) :
    c.toUpper.isUpper = true := by
  rw [Char.isAlpha, Bool.or_eq_true, isUpper_iff, isLower_iff] at h
  rw [isUpper_iff, toUpper_toNat]
  split_ifs <;> omega

theorem toUpper_ne_toLower_of_isAlpha {c : Char} (h : c.isAlpha = true) :
    ¬ c.toUpper = c.toLower := by
  rw [Char.isAlpha, Bool.or_eq_true, isUpper_iff, isLower_iff] at h
  intro heq
  have h2 := congrArg Char.toNat heq
  rw [toUpper_toNat, toLower_toNat] at h2
  split_ifs at h2 <;> omega

theorem flipCase_toUpper_of_isAlpha {c : Char} (h : c.isAlpha = true) :
    flipCase c.toUpper = c.toLower := by
  rw [flipCase, if_pos (isUpper_toUpper_of_isAlpha h), toLower_toUpper]

theorem toLower_flipCase (c : Char) : (flipCase c).toLower = c.toLower := by
  rw [flipCase]
  split_ifs with h1 h2
  · exact toLower_toLower c
  · exact toLower_toUpper c
  · rfl

/-! ## Checksum-loop lemmas -/

theorem checksumChars_length (as hs : List Char) :
    (checksumChars as hs).length = as.length := by
  induction as generalizing hs with
  | nil => rfl
  | cons a as ih =>
    cases hs with
    | nil => simp [checksumChars, ih]
    | cons h hs => simp [checksumChars, ih]

theorem checksumChars_get? (as hs : List Char) (i : Nat) :
    (checksumChars as hs).get? i = (as.get? i).map
      (fun a => if 8 ≤ ((hs.get? i).bind hexDigitVal).getD 0 then a.toUpper else a) := by
  induction as generalizing hs i with
  | nil => simp [checksumChars]
  | cons a as ih =>
    cases hs with
    | nil =>
      cases i with
      | zero => simp [checksumChars]
      | succ n => simpa [checksumChars] using ih [] n
    | cons h hs =>
      cases i with
      | zero => simp [checksumChars]
      | succ n => simpa [checksumChars] using ih hs n

theorem checksumChars_map_toLower (as hs : List Char) :
    (checksumChars as hs).map Char.toLower = as.map Char.toLower := by
  induction as generalizing hs with
  | nil => rfl
  | cons a as ih =>
    cases hs with
    | nil => simp [checksumChars, ih]
    | cons h hs =>
      by_cases hc : 8 ≤ (hexDigitVal h).getD 0 <;>
        simp [checksumChars, hc, ih hs, toLower_toUpper]

theorem checksumChars_idem (as hs : List Char) :
    checksumChars (checksumChars as hs) hs = checksumChars as hs := by
  induction as generalizing hs with
  | nil => rfl
  | cons a as ih =>
    cases hs with
    | nil => simp [checksumChars, ih]
    | cons h hs =>
      by_cases hc : 8 ≤ (hexDigitVal h).getD 0 <;>
        simp [checksumChars, hc, ih hs, toUpper_toUpper]

theorem checksumChars_all_hex {as : List Char} (hs : List Char)
    (h : as.all isHexChar = true) : (checksumChars as hs).all isHexChar = true := by
  induction as generalizing hs with
  | nil => rfl
  | cons a as ih =>
    rw [List.all_cons, Bool.and_eq_true] at h
    cases hs with
    | nil =>
      rw [checksumChars, List.all_cons, Bool.and_eq_true]
      exact ⟨h.1, ih [] h.2⟩
    | cons hd hs =>
      rw [checksumChars, List.all_cons, Bool.and_eq_true]
      refine ⟨?_, ih hs h.2⟩
      by_cases hc : 8 ≤ (hexDigitVal hd).getD 0
      · rw [if_pos hc]
        exact isHexChar_toUpper h.1
      · rw [if_neg hc]
        exact h.1

/-! ## Checksum-address lemmas -/

theorem generateChecksumAddress_data (a : String) :
    (generateChecksumAddress a).data =
      'x' :: 'e' :: '_' :: checksumChars (a.data.drop 3)
        (keccak256 (jsToLowerCase (jsSliceFrom a 3))).data := rfl

theorem generateChecksumAddress_eq (x : String) : generateChecksumAddress x =
    "xe_" ++ String.mk (checksumChars (x.data.drop 3)
      (keccak256 (String.mk ((x.data.drop 3).map Char.toLower))).data) := rfl

theorem generateChecksumAddress_idem (a : String) :
    generateChecksumAddress (generateChecksumAddress a) = generateChecksumAddress a := by
  rw [generateChecksumAddress_eq (generateChecksumAddress a)]
  have hb : (generateChecksumAddress a).data.drop 3
      = checksumChars (a.data.drop 3)
        (keccak256 (String.mk ((a.data.drop 3).map Char.toLower))).data := rfl
  rw [hb, checksumChars_map_toLower, checksumChars_idem]
  exact (generateChecksumAddress_eq a).symm

theorem matchesAddressRegex_gga {a : String} (h : matchesAddressRegex a = true) :
    matchesAddressRegex (generateChecksumAddress a) = true := by
  rw [matchesAddressRegex, Bool.and_eq_true, Bool.and_eq_true] at h ⊢
  obtain ⟨⟨hlen, _⟩, hhex⟩ := h
  rw [beq_iff_eq] at hlen
  rw [generateChecksumAddress_data]
  refine ⟨⟨?_, by rfl⟩, ?_⟩
  · rw [beq_iff_eq]
    simp [checksumChars_length, hlen]
  · show (checksumChars (a.data.drop 3) _).all isHexChar = true
    exact checksumChars_all_hex _ hhex

theorem checksumAddressIsValid_gga {a : String} (h : matchesAddressRegex a = true) :
    checksumAddressIsValid (generateChecksumAddress a) = true := by
  rw [checksumAddressIsValid, matchesAddressRegex_gga h]
  simp [generateChecksumAddress_idem]

/-! ## Case-flip lemmas -/

theorem flipListAt_get?_self (k : Nat) (l : List Char) :
    (flipListAt k l).get? k = (l.get? k).map flipCase := by
  induction l generalizing k with
  | nil => simp [flipListAt]
  | cons c cs ih =>
    cases k with
    | zero => simp [flipListAt]
    | succ n => simpa [flipListAt] using ih n

theorem flipListAt_map_toLower (k : Nat) (l : List Char) :
    (flipListAt k l).map Char.toLower = l.map Char.toLower := by
  induction l generalizing k with
  | nil => cases k <;> rfl
  | cons c cs ih =>
    cases k with
    | zero => simp [flipListAt, toLower_flipCase]
    | succ n => simp [flipListAt, ih n]

/-! ## Evaluation lemmas for `verifyIdentity` on well-formed identity objects -/

theorem jsProp_idObj_address (a : String) (ts : JSNum) (ss : List String) (cc : List JSNum) :
    jsProp (idObj a ts ss cc) "address" = .str a := rfl

theorem jsProp_idObj_timestamp (a : String) (ts : JSNum) (ss : List String) (cc : List JSNum) :
    jsProp (idObj a ts ss cc) "timestamp" = .num ts := rfl

theorem jsProp_idObj_s (a : String) (ts : JSNum) (ss : List String) (cc : List JSNum) :
    jsProp (idObj a ts ss cc) "s" = .arr (ss.map .str) := rfl

theorem jsProp_idObj_c (a : String) (ts : JSNum) (ss : List String) (cc : List JSNum) :
    jsProp (idObj a ts ss cc) "c" = .arr (cc.map .num) := rfl

theorem jsIndex_arr_str (ss : List String) (i : Nat) (h : i < ss.length) :
    jsIndex (.arr (ss.map .str)) i = .str (ss.getD i "") := by
  rw [jsIndex, List.get?_map, List.getD_eq_get?]
  cases hq : ss.get? i with
  | none => exact absurd (List.get?_eq_none.mp hq) (by omega)
  | some v => rfl

theorem jsIndex_arr_num (cc : List JSNum) (i : Nat) (h : i < cc.length) :
    jsIndex (.arr (cc.map .num)) i = .num (cc.getD i .nan) := by
  rw [jsIndex, List.get?_map, List.getD_eq_get?]
  cases hq : cc.get? i with
  | none => exact absurd (List.get?_eq_none.mp hq) (by omega)
  | some v => rfl

/-- One unfolding of the challenge loop on a well-formed identity object,
with the JavaScript plumbing evaluated away. -/
theorem verifyChallengeLoop_step (P : ExternPrims) (a : String) (ts : JSNum)
    (ss : List String) (cc : List JSNum) (f i : Nat)
    (hi : i < ss.length) (hic : i < cc.length) :
    verifyChallengeLoop P (.str a) (.num ts) (.arr (ss.map .str)) (.arr (cc.map .num))
        (.num (.int ss.length)) (f + 1) i
      = if jsStartsWith (ss.getD i "") (zeroTarget (calculateDifficulty i)) then
          match P.argon2id (chainMessage a ts ss i) (chainSalt i) with
          | .error e => .error e
          | .ok seedHex =>
            match verifySignatureAddress P (seedHex ++ jsNumRepr (cc.getD i .nan))
                (ss.getD i "") (.str a) with
            | .error e => .error e
            | .ok false => .ok false
            | .ok true => verifyChallengeLoop P (.str a) (.num ts) (.arr (ss.map .str))
                (.arr (cc.map .num)) (.num (.int ss.length)) f (i + 1)
        else .ok false := by
  have hlt : jsLtNat i (jsToNumber (.num (.int ss.length))) = true := by
    simp only [jsToNumber, jsLtNat, decide_eq_true_eq]
    omega
  have hmsg : (if i = 0 then JSVal.str (jsToString (.str a) ++ ":" ++ jsToString (.num ts))
      else jsIndex (.arr (ss.map .str)) (i - 1)) = .str (chainMessage a ts ss i) := by
    by_cases h0 : i = 0
    · subst h0
      rfl
    · rw [if_neg h0, jsIndex_arr_str ss (i - 1) (by omega), chainMessage, if_neg h0]
  rw [verifyChallengeLoop, hlt, if_pos rfl, jsIndex_arr_str ss i hi, hmsg,
    jsIndex_arr_num cc i hic]
  rfl

/-- The challenge loop accepts exactly when every remaining link passes all
its checks. -/
theorem verifyChallengeLoop_ok_iff (P : ExternPrims) (a : String) (ts : JSNum)
    (ss : List String) (cc : List JSNum) (hlen : cc.length = ss.length) :
    ∀ k i fuel, i + k = ss.length → k < fuel →
      (verifyChallengeLoop P (.str a) (.num ts) (.arr (ss.map .str)) (.arr (cc.map .num))
          (.num (.int ss.length)) fuel i = .ok true
        ↔ ∀ j, i ≤ j → j < ss.length → linkVerifies P a ts ss cc j) := by
  intro k
  induction k with
  | zero =>
    intro i fuel hik hf
    cases fuel with
    | zero => omega
    | succ f =>
      have hlt : jsLtNat i (jsToNumber (.num (.int ss.length))) = false := by
        simp only [jsToNumber, jsLtNat, decide_eq_false_iff_not]
        omega
      rw [verifyChallengeLoop, hlt]
      constructor
      · intro _ j hj1 hj2
        omega
      · intro _
        rfl
  | succ k ih =>
    intro i fuel hik hf
    cases fuel with
    | zero => omega
    | succ f =>
      have hi : i < ss.length := by omega
      have hic : i < cc.length := by omega
      rw [verifyChallengeLoop_step P a ts ss cc f i hi hic]
      cases hstart : jsStartsWith (ss.getD i "") (zeroTarget (calculateDifficulty i)) with
      | false =>
        rw [if_neg Bool.false_ne_true]
        constructor
        · intro hcontra
          exact absurd hcontra (by intro h; exact Bool.noConfusion (Except.ok.inj h))
        · intro hall
          exact absurd (hall i (Nat.le_refl i) hi).1 (by rw [hstart]; exact fun h => Bool.noConfusion h)
      | true =>
        rw [if_pos rfl]
        cases har : P.argon2id (chainMessage a ts ss i) (chainSalt i) with
        | error e =>
          simp only []
          constructor
          · intro hcontra
            exact absurd hcontra (by intro h; exact Except.noConfusion h)
          · intro hall
            obtain ⟨seed, hseed, _⟩ := (hall i (Nat.le_refl i) hi).2
            rw [har] at hseed
            exact Except.noConfusion hseed
        | ok seedHex =>
          simp only []
          cases hver : verifySignatureAddress P (seedHex ++ jsNumRepr (cc.getD i .nan))
              (ss.getD i "") (.str a) with
          | error e =>
            simp only []
            constructor
            · intro hcontra
              exact absurd hcontra (by intro h; exact Except.noConfusion h)
            · intro hall
              obtain ⟨seed, hseed, hok⟩ := (hall i (Nat.le_refl i) hi).2
              rw [har] at hseed
              have hseed2 := Except.ok.inj hseed
              subst hseed2
              rw [hver] at hok
              exact Except.noConfusion hok
          | ok b =>
            cases b with
            | false =>
              simp only []
              constructor
              · intro hcontra
                exact absurd hcontra
                  (by intro h; exact Bool.noConfusion (Except.ok.inj h))
              · intro hall
                obtain ⟨seed, hseed, hok⟩ := (hall i (Nat.le_refl i) hi).2
                rw [har] at hseed
                have hseed2 := Except.ok.inj hseed
                subst hseed2
                rw [hver] at hok
                exact Bool.noConfusion (Except.ok.inj hok)
            | true =>
              simp only []
              rw [ih (i + 1) f (by omega) (by omega)]
              constructor
              · intro hrest j hj1 hj2
                rcases Nat.eq_or_lt_of_le hj1 with heq | hlt2
                · subst heq
                  exact ⟨hstart, seedHex, har, hver⟩
                · exact hrest j hlt2 hj2
              · intro hall j hj1 hj2
                exact hall j (by omega) hj2

/-- Characterization of `verifyIdentity` on a well-formed identity object: true exactly when the
timestamp is truthy, the chains are nonempty and of equal length, and every
link passes its checks. -/
theorem verifyIdentity_idObj_iff (P : ExternPrims) (a : String) (ts : JSNum)
    (ss : List String) (cc : List JSNum) :
    verifyIdentity P (idObj a ts ss cc) = true ↔
      jsFalsy (.num ts) = false ∧ ss ≠ [] ∧ cc.length = ss.length ∧
      ∀ j, j < ss.length → linkVerifies P a ts ss cc j := by
  have hbody : verifyIdentityBody P (idObj a ts ss cc)
      = (if jsFalsy (.num ts) then (.ok false : ExceptJS Bool)
        else if !((ss.length : Int) == (cc.length : Int)) then .ok false
        else if ((ss.length : Int) == (0 : Int)) then .ok false
        else verifyChallengeLoop P (.str a) (.num ts) (.arr (ss.map .str))
          (.arr (cc.map .num)) (.num (.int ss.length)) (ss.length + 1) 0) := by
    have h0 : verifyIdentityBody P (idObj a ts ss cc)
        = (if jsFalsy (.num ts) then (.ok false : ExceptJS Bool)
          else if !(((ss.map JSVal.str).length : Int) == ((cc.map JSVal.num).length : Int))
            then .ok false
          else if (((ss.map JSVal.str).length : Int) == (0 : Int)) then .ok false
          else verifyChallengeLoop P (.str a) (.num ts) (.arr (ss.map .str))
            (.arr (cc.map .num)) (.num (.int (ss.map JSVal.str).length))
            ((ss.map JSVal.str).length + 1) 0) := by
      rfl
    rw [h0]
    simp only [List.length_map]
  rw [verifyIdentity, hbody]
  cases hts : jsFalsy (.num ts) with
  | true =>
    simp only [if_true]
    constructor
    · intro h
      exact Bool.noConfusion h
    · intro ⟨h1, _⟩
      exact Bool.noConfusion h1
  | false =>
    simp only [Bool.false_eq_true, if_false]
    by_cases hlen : cc.length = ss.length
    · rw [hlen]
      simp only [beq_self_eq_true, Bool.not_true, Bool.false_eq_true, if_false]
      by_cases hnil : ss = []
      · subst hnil
        simp
      · have hpos : 0 < ss.length := List.length_pos.mpr hnil
        have hz2 : ((ss.length : Int) == (0 : Int)) = false := by
          simp only [beq_eq_false_iff_ne, ne_eq]
          omega
        rw [hz2]
        simp only [Bool.false_eq_true, if_false]
        have hloop := verifyChallengeLoop_ok_iff P a ts ss cc hlen ss.length 0
          (ss.length + 1) (by omega) (by omega)
        cases hres : verifyChallengeLoop P (.str a) (.num ts) (.arr (ss.map .str))
            (.arr (cc.map .num)) (.num (.int ss.length)) (ss.length + 1) 0 with
        | error e =>
          rw [hres] at hloop
          simp only []
          constructor
          · intro h
            exact Bool.noConfusion h
          · intro ⟨_, _, _, hall⟩
            have hcontra : (Except.error e : ExceptJS Bool) = .ok true := by
              rw [hloop]
              intro j _ hj
              exact hall j hj
            exact Except.noConfusion hcontra
        | ok b =>
          rw [hres] at hloop
          simp only []
          constructor
          · intro hb
            rw [hb] at hloop
            refine ⟨by trivial, hnil, by trivial, fun j hj => ?_⟩
            exact (hloop.mp rfl) j (Nat.zero_le j) hj
          · intro ⟨_, _, _, hall⟩
            have hok : (Except.ok b : ExceptJS Bool) = .ok true := by
              rw [hloop]
              intro j _ hj
              exact hall j hj
            exact Except.ok.inj hok
    · have hne : ((ss.length : Int) == (cc.length : Int)) = false := by
        simp only [beq_eq_false_iff_ne, ne_eq]
        omega
      rw [hne]
      simp only [Bool.not_false, if_true]
      constructor
      · intro h
        exact Bool.noConfusion h
      · intro ⟨_, _, h3, _⟩
        exact absurd h3 hlen

theorem verifyIdentity_eq_false {P : ExternPrims} {v : JSVal}
    (h : ¬ verifyIdentity P v = true) : verifyIdentity P v = false := by
  cases hv : verifyIdentity P v with
  | false => rfl
  | true => exact absurd hv h

theorem getD_set_self {α : Type} (l : List α) (j : Nat) (x d : α) (h : j < l.length) :
    (l.set j x).getD j d = x := by
  rw [List.getD_eq_getElem?_getD, List.getElem?_set_self h]
  rfl

theorem getD_set_ne {α : Type} (l : List α) (i j : Nat) (x d : α) (h : i ≠ j) :
    (l.set i x).getD j d = l.getD j d := by
  rw [List.getD_eq_getElem?_getD, List.getElem?_set_ne h, ← List.getD_eq_getElem?_getD]

/-! ## Claim C1: chain binding -/

/-- C1 (amended): chain binding for a verifying identity.  Tampering with
the address or the timestamp invalidates the identity through link 0 (whose
message binds both), tampering with any solution `c[j]` invalidates link
`j`, and tampering with a signature `s[j]` that has a later link
invalidates link `j + 1` (which signs `s[j]`).  Each part carries its
instance-scoped cryptographic assumption — that the tampered data does not
happen to produce a signature/seed that still recovers to the claimed
address — which holds except with negligible probability for real
secp256k1 + SHA-256 + Argon2id and cannot be discharged inside a
non-probabilistic model.  Tampering with the *final* signature is excluded:
the claim fails there, because a different valid signature of the same
mined input verifies (see the counterexample). -/
theorem chain_binding_amended (P : ExternPrims) (a : String) (ts : JSNum)
    (ss : List String) (cc : List JSNum)
    (hv : verifyIdentity P (idObj a ts ss cc) = true) :
    (∀ a2 : String, a2 ≠ a →
      (∀ seed, P.argon2id (chainMessage a2 ts ss 0) (chainSalt 0) = .ok seed →
        ¬ verifySignatureAddress P (seed ++ jsNumRepr (cc.getD 0 .nan)) (ss.getD 0 "")
            (.str a2) = .ok true) →
      verifyIdentity P (idObj a2 ts ss cc) = false) ∧
    (∀ ts2 : JSNum, ts2 ≠ ts →
      (∀ seed, P.argon2id (chainMessage a ts2 ss 0) (chainSalt 0) = .ok seed →
        ¬ verifySignatureAddress P (seed ++ jsNumRepr (cc.getD 0 .nan)) (ss.getD 0 "")
            (.str a) = .ok true) →
      verifyIdentity P (idObj a ts2 ss cc) = false) ∧
    (∀ j cj, j < cc.length →
      (∀ seed, P.argon2id (chainMessage a ts ss j) (chainSalt j) = .ok seed →
        ¬ verifySignatureAddress P (seed ++ jsNumRepr cj) (ss.getD j "")
            (.str a) = .ok true) →
      verifyIdentity P (idObj a ts ss (cc.set j cj)) = false) ∧
    (∀ j sj, j + 1 < ss.length →
      (∀ seed, P.argon2id sj (chainSalt (j + 1)) = .ok seed →
        ¬ verifySignatureAddress P (seed ++ jsNumRepr (cc.getD (j + 1) .nan))
            (ss.getD (j + 1) "") (.str a) = .ok true) →
      verifyIdentity P (idObj a ts (ss.set j sj) cc) = false) := by
  refine ⟨?_, ?_, ?_, ?_⟩
  · intro a2 _ hsec
    apply verifyIdentity_eq_false
    intro htrue
    obtain ⟨_, hnil2, _, hall2⟩ := (verifyIdentity_idObj_iff P a2 ts ss cc).mp htrue
    obtain ⟨_, seed, hseed, hok⟩ := hall2 0 (List.length_pos.mpr hnil2)
    exact hsec seed hseed hok
  · intro ts2 _ hsec
    apply verifyIdentity_eq_false
    intro htrue
    obtain ⟨_, hnil2, _, hall2⟩ := (verifyIdentity_idObj_iff P a ts2 ss cc).mp htrue
    obtain ⟨_, seed, hseed, hok⟩ := hall2 0 (List.length_pos.mpr hnil2)
    exact hsec seed hseed hok
  · intro j cj hj hsec
    apply verifyIdentity_eq_false
    intro htrue
    obtain ⟨_, _, hlen2, hall2⟩ := (verifyIdentity_idObj_iff P a ts ss (cc.set j cj)).mp htrue
    have hjs : j < ss.length := by
      rw [← hlen2, List.length_set]
      exact hj
    obtain ⟨_, seed, hseed, hok⟩ := hall2 j hjs
    rw [getD_set_self cc j cj JSNum.nan hj] at hok
    exact hsec seed hseed hok
  · intro j sj hj hsec
    apply verifyIdentity_eq_false
    intro htrue
    obtain ⟨_, _, _, hall2⟩ := (verifyIdentity_idObj_iff P a ts (ss.set j sj) cc).mp htrue
    have hj1 : j + 1 < (ss.set j sj).length := by
      rw [List.length_set]
      exact hj
    obtain ⟨_, seed, hseed, hok⟩ := hall2 (j + 1) hj1
    have hmsg : chainMessage a ts (ss.set j sj) (j + 1) = sj := by
      rw [chainMessage, if_neg (Nat.succ_ne_zero j)]
      simp only [Nat.add_sub_cancel]
      exact getD_set_self ss j sj "" (by omega)
    rw [hmsg] at hseed
    rw [getD_set_ne ss j (j + 1) sj "" (by omega)] at hok
    exact hsec seed hseed hok

/-- Witness for `chain_binding_amended`: a concrete two-link identity that
verifies under the programmed primitives, whose address-tampered variant
is rejected. -/
theorem chain_binding_amended_witness :
    verifyIdentity toyPrims toyIdentity = true ∧
    verifyIdentity toyPrims
      (idObj "xe_wrong" toyTimestampNum [toySig0, toySig1] [.int 0, .int 1]) = false := by
  have hv : verifyIdentity toyPrims toyIdentity = true := by decide
  have h := chain_binding_amended toyPrims toyAddress toyTimestampNum
    [toySig0, toySig1] [.int 0, .int 1] hv
  refine ⟨hv, ?_⟩
  apply h.1 "xe_wrong" (by decide)
  intro seed hseed hok
  have hs := Except.ok.inj hseed
  rw [← hs] at hok
  have hres : verifySignatureAddress toyPrims
      ((chainMessage "xe_wrong" toyTimestampNum [toySig0, toySig1] 0 ++ "|" ++ chainSalt 0)
        ++ jsNumRepr (([JSNum.int 0, JSNum.int 1].getD 0 .nan)))
      ([toySig0, toySig1].getD 0 "") (.str "xe_wrong") = .ok false := rfl
  rw [hres] at hok
  exact Bool.noConfusion (Except.ok.inj hok)

/-- Counterexample to C1 as stated: replacing the final (here: only)
signature of a verifying identity by a *different* valid signature of the
same mined input leaves `verifyIdentity` true.  ECDSA signing is randomized
(the library's comment on mining relies on it), so distinct valid
signatures of the same input exist, and recovery accepts each of them;
hence tampering with `s[j]` for `j = i` at the last link does not force a
false verdict, refuting the claim's "any earlier signature s[j] (j ≤ i)". -/
theorem chain_binding_last_link_resign :
    verifyIdentity c1Prims c1Identity = true ∧
    verifyIdentity c1Prims c1IdentityTampered = true ∧
    (toySig0Alt == toySig0) = false := by
  exact ⟨by decide, by decide, by decide⟩

/-! ## Claim C5: non-integer solutions -/

/-- C5 (amended): replacing a solution of a verifying identity with a value
that is not a non-negative integer (negative, NaN, Infinity or
non-integral) makes `verifyIdentity` return false — never an uncaught
error — *provided* the link's signature does not also verify over the
altered concatenation (the instance-scoped cryptographic assumption).  The
unrestricted claim is false: `verifyIdentity` performs no structural check
on `c[i]`, so an adversary who signs the concatenation `seed ++ "NaN"`
produces an identity with `c[0] = NaN` that verifies (counterexample). -/
theorem solution_type_rejection_amended (P : ExternPrims) (a : String) (ts : JSNum)
    (ss : List String) (cc : List JSNum)
    (hv : verifyIdentity P (idObj a ts ss cc) = true)
    (j : Nat) (hj : j < cc.length) (v : JSNum) (hbad : jsNumIsNonNegInt v = false)
    (hsec : ∀ seed, P.argon2id (chainMessage a ts ss j) (chainSalt j) = .ok seed →
      ¬ verifySignatureAddress P (seed ++ jsNumRepr v) (ss.getD j "") (.str a) = .ok true) :
    verifyIdentity P (idObj a ts ss (cc.set j v)) = false := by
  apply verifyIdentity_eq_false
  intro htrue
  obtain ⟨_, _, hlen2, hall2⟩ := (verifyIdentity_idObj_iff P a ts ss (cc.set j v)).mp htrue
  have hjs : j < ss.length := by
    rw [← hlen2, List.length_set]
    exact hj
  obtain ⟨_, seed, hseed, hok⟩ := hall2 j hjs
  rw [getD_set_self cc j v JSNum.nan hj] at hok
  exact hsec seed hseed hok

/-- Witness for `solution_type_rejection_amended`: setting `c[1] = NaN` on
the concrete verifying identity is rejected. -/
theorem solution_type_rejection_amended_witness :
    verifyIdentity toyPrims toyIdentity = true ∧
    verifyIdentity toyPrims
      (idObj toyAddress toyTimestampNum [toySig0, toySig1]
        ([JSNum.int 0, JSNum.int 1].set 1 .nan)) = false := by
  have hv : verifyIdentity toyPrims toyIdentity = true := by decide
  refine ⟨hv, ?_⟩
  apply solution_type_rejection_amended toyPrims toyAddress toyTimestampNum
    [toySig0, toySig1] [.int 0, .int 1] hv 1 (by decide) .nan (by decide)
  intro seed hseed hok
  have hs := Except.ok.inj hseed
  rw [← hs] at hok
  have hres : verifySignatureAddress toyPrims
      ((chainMessage toyAddress toyTimestampNum [toySig0, toySig1] 1 ++ "|" ++ chainSalt 1)
        ++ jsNumRepr JSNum.nan)
      ([toySig0, toySig1].getD 1 "") (.str toyAddress) = .ok false := rfl
  rw [hres] at hok
  exact Bool.noConfusion (Except.ok.inj hok)

/-- Counterexample to C5 as stated: an adversarially signed identity whose
only solution is `NaN` verifies, because string concatenation stringifies
the solution and no structural check rejects it. -/
theorem nan_solution_identity_verifies :
    verifyIdentity c5Prims c5Identity = true ∧
    jsNumIsNonNegInt JSNum.nan = false := by
  exact ⟨by decide, by decide⟩

/-! ## Claim C10: zero timestamp -/

theorem guard_ts0 (b1 b2 : Bool) (e : ExceptJS Bool) :
    (match (if b1 then (Except.ok false : ExceptJS Bool) else if b2 then .ok false
      else if jsFalsy (.num (.int 0)) then .ok false else e) with
     | .ok b => b
     | .error _ => false) = false := by
  cases b1 with
  | true => rfl
  | false =>
    cases b2 with
    | true => rfl
    | false => rfl

/-- C10: an identity object whose `timestamp` field is 0 is rejected no
matter what the other fields hold: either reading `s.length` throws (nullish
`s`, caught as false) or the structural guard hits `!timestamp`, which is
true for the falsy number 0. -/
theorem zero_timestamp_rejected (P : ExternPrims) (a s c : JSVal) :
    verifyIdentity P
      (.obj [("address", a), ("timestamp", .num (.int 0)), ("s", s), ("c", c)]) = false := by
  cases s with
  | undefined => rfl
  | vnull => rfl
  | bool b => exact guard_ts0 (jsFalsy (.bool b)) (jsFalsy c) _
  | num n => exact guard_ts0 (jsFalsy (.num n)) (jsFalsy c) _
  | str t => exact guard_ts0 (jsFalsy (.str t)) (jsFalsy c) _
  | arr l => exact guard_ts0 (jsFalsy (.arr l)) (jsFalsy c) _
  | obj fields => exact guard_ts0 (jsFalsy (.obj fields)) (jsFalsy c) _

/-! ## Claim C7: verification is total -/

/-- C7: `verifyIdentity` is a total Boolean predicate over arbitrary input.
Totality over every JavaScript value is by construction of the embedding (a
Lean function into `Bool` defined on all of `JSVal`); the theorem records
the `try/catch` contract: any error the body raises is converted to
`false`, and a `true` verdict can only come from a normally-completed body. -/
theorem verification_total (P : ExternPrims) (v : JSVal) :
    (∀ e, verifyIdentityBody P v = .error e → verifyIdentity P v = false) ∧
    (verifyIdentity P v = true → verifyIdentityBody P v = .ok true) := by
  constructor
  · intro e he
    rw [verifyIdentity, he]
  · intro h
    rw [verifyIdentity] at h
    cases hb : verifyIdentityBody P v with
    | error e =>
      rw [hb] at h
      exact Bool.noConfusion h
    | ok b =>
      rw [hb] at h
      simp only [] at h
      rw [h]

/-- Witness for `verification_total`: a `null` input makes destructuring
throw a `TypeError`, which the catch converts to `false`. -/
theorem verification_total_witness :
    verifyIdentityBody toyPrims .vnull = .error .typeError ∧
    verifyIdentity toyPrims .vnull = false :=
  ⟨rfl, (verification_total toyPrims .vnull).1 .typeError rfl⟩

/-! ## Claim C8: addChallenge atomicity -/

/-- C8 (amended): when `addChallenge` completes, `s` and `c` each grew by
exactly one element.  When it fails, `c` never grew, and `s` did not grow
either — except in one observable case: the mined link was produced, the
push onto `s` succeeded, and the push onto a frozen `c` then threw, leaving
`s` grown by one.  The all-or-nothing claim fails on exactly that case (see
the counterexample); the code pushes `s` first and `c` second with no
rollback. -/
theorem addChallenge_growth (P : ExternPrims) (id : MutIdentity) :
    ((addChallenge P id).2 = none →
      (addChallenge P id).1.s.length = id.s.length + 1 ∧
      (addChallenge P id).1.c.length = id.c.length + 1) ∧
    (∀ e, (addChallenge P id).2 = some e →
      (addChallenge P id).1.c = id.c ∧
      ((addChallenge P id).1.s = id.s ∨
        (id.cFrozen = true ∧ id.sFrozen = false ∧
          ∃ sig, (addChallenge P id).1.s = id.s ++ [sig]))) := by
  rw [addChallenge]
  cases hm : P.mine id.privateKey
      (if id.s.length = 0 then id.address ++ ":" ++ jsNumRepr id.timestamp
       else id.s.getD (id.s.length - 1) "")
      (calculateDifficulty id.s.length) id.s.length with
  | error e =>
    simp only []
    exact ⟨fun h => Option.noConfusion h, fun e2 _ => ⟨by trivial, Or.inl (by trivial)⟩⟩
  | ok pair =>
    obtain ⟨sig, sol⟩ := pair
    simp only []
    cases hsf : id.sFrozen with
    | true =>
      simp only [if_pos rfl]
      exact ⟨fun h => Option.noConfusion h, fun e2 _ => ⟨by trivial, Or.inl (by trivial)⟩⟩
    | false =>
      simp only [Bool.false_eq_true, if_false]
      cases hcf : id.cFrozen with
      | true =>
        simp only [if_pos rfl]
        exact ⟨fun h => Option.noConfusion h,
          fun e2 _ => ⟨by trivial, Or.inr ⟨by trivial, by trivial, sig, by trivial⟩⟩⟩
      | false =>
        simp only [Bool.false_eq_true, if_false]
        refine ⟨fun _ => ⟨?_, ?_⟩, fun e2 he2 => Option.noConfusion he2⟩
        · simp [List.length_append]
        · simp [List.length_append]

/-- Witness for `addChallenge_growth`: on an identity with both arrays
mutable, the call completes and both arrays grew by one. -/
theorem addChallenge_growth_witness :
    (addChallenge toyPrims c8IdentityOk).1.s.length = c8IdentityOk.s.length + 1 ∧
    (addChallenge toyPrims c8IdentityOk).1.c.length = c8IdentityOk.c.length + 1 :=
  (addChallenge_growth toyPrims c8IdentityOk).1 rfl

/-- Counterexample to C8 as stated: with `c` frozen but `s` mutable,
`addChallenge` fails with a `TypeError` *after* growing `s`: the caller
observes partial mutation (`s` grew, `c` did not). -/
theorem addChallenge_partial_mutation :
    (addChallenge toyPrims c8Identity).2 = some JsError.typeError ∧
    (addChallenge toyPrims c8Identity).1.s.length = c8Identity.s.length + 1 ∧
    (addChallenge toyPrims c8Identity).1.c.length = c8Identity.c.length :=
  ⟨rfl, rfl, rfl⟩

/-! ## Claim C6: signature round trip -/

theorem string_mk_data (s : String) : String.mk s.data = s := rfl

theorem jsSlice_sig_r (x y z : String) (hx : x.data.length = 64) :
    jsSlice (x ++ y ++ z) 0 64 = x := by
  rw [jsSlice]
  simp only [String.data_append, List.drop_zero, List.append_assoc, Nat.sub_zero]
  rw [← hx, List.take_left]

theorem jsSlice_sig_s (x y z : String) (hx : x.data.length = 64)
    (hy : y.data.length = 64) : jsSlice (x ++ y ++ z) 64 128 = y := by
  rw [jsSlice]
  simp only [String.data_append, List.append_assoc]
  rw [← hx, List.drop_left]
  have h2 : (128 : Nat) - x.data.length = y.data.length := by omega
  rw [h2, List.take_left]

theorem jsSlice_sig_v (x y z : String) (hx : x.data.length = 64)
    (hy : y.data.length = 64) : jsSlice (x ++ y ++ z) 128 130 = String.mk (z.data.take 2) := by
  rw [jsSlice]
  simp only [String.data_append]
  have hxy : (x.data ++ y.data).length = 128 := by
    rw [List.length_append, hx, hy]
  rw [← hxy, List.drop_left]
  have h2 : (130 : Nat) - (x.data ++ y.data).length = 2 := by
    rw [hxy]
  rw [h2]

/-- C6: round trip.  For a wallet derived from a private key and any
message, recovering the address from the generated signature returns the
wallet's address.  The hypotheses record what the elliptic library
guarantees for its canonical signatures: `r` and `s` serialize to 64 hex
characters, a recovery parameter in {0, 1} is present, and recovery with
that parameter on the same digest returns the signer's public key. -/
theorem signature_roundtrip (P : ExternPrims) (privateKey msg : String) (v : Nat)
    (hr : (P.ecSign privateKey (P.sha256 msg)).r.data.length = 64)
    (hs : (P.ecSign privateKey (P.sha256 msg)).s.data.length = 64)
    (hv : (P.ecSign privateKey (P.sha256 msg)).recoveryParam = some v)
    (hv2 : v < 2)
    (hrec : P.ecRecover (P.sha256 msg) (P.ecSign privateKey (P.sha256 msg)).r
      (P.ecSign privateKey (P.sha256 msg)).s v = .ok (P.privToPub privateKey)) :
    recoverAddressFromSignedMessage P msg (generateSignature P privateKey msg)
      = .ok ((restoreWalletFromPrivateKey P privateKey).address) := by
  have hsig : generateSignature P privateKey msg
      = (P.ecSign privateKey (P.sha256 msg)).r ++ (P.ecSign privateKey (P.sha256 msg)).s
        ++ padStart2 (toHexString v) := by
    rw [generateSignature, hv]
  rw [recoverAddressFromSignedMessage, recoverPublicKeyFromSignedMessage, hsig,
    jsSlice_sig_r _ _ _ hr, jsSlice_sig_s _ _ _ hr hs, jsSlice_sig_v _ _ _ hr hs]
  interval_cases v
  · have hparse : parseIntHex (String.mk ((padStart2 (toHexString 0)).data.take 2))
        = some 0 := by decide
    rw [hparse]
    simp only []
    rw [if_pos (by omega)]
    show (match P.ecRecover (P.sha256 msg) (P.ecSign privateKey (P.sha256 msg)).r
        (P.ecSign privateKey (P.sha256 msg)).s (Int.toNat 0) with
      | .error e => (.error e : ExceptJS String)
      | .ok publicKey => .ok (publicKeyToChecksumAddress publicKey)) = _
    rw [show Int.toNat 0 = 0 from rfl, hrec]
    rfl
  · have hparse : parseIntHex (String.mk ((padStart2 (toHexString 1)).data.take 2))
        = some 1 := by decide
    rw [hparse]
    simp only []
    rw [if_pos (by omega)]
    show (match P.ecRecover (P.sha256 msg) (P.ecSign privateKey (P.sha256 msg)).r
        (P.ecSign privateKey (P.sha256 msg)).s (Int.toNat 1) with
      | .error e => (.error e : ExceptJS String)
      | .ok publicKey => .ok (publicKeyToChecksumAddress publicKey)) = _
    rw [show Int.toNat 1 = 1 from rfl, hrec]
    rfl

/-- Witness for `signature_roundtrip` with concrete primitives and key. -/
theorem signature_roundtrip_witness :
    recoverAddressFromSignedMessage c6Prims "msg" (generateSignature c6Prims "key" "msg")
      = .ok ((restoreWalletFromPrivateKey c6Prims "key").address) :=
  signature_roundtrip c6Prims "key" "msg" 0 (by decide) (by decide) rfl (by decide) rfl

/-! ## Claim C2: difficulty schedule -/

/-- C2 (amended): the difficulty schedule is the pure function
`clamp(2 + floor(i * 0.4), 2, 4)`; its values are `d(0..4) = 2,2,2,3,3` —
the code yields `d(4) = 3`, not the claimed 4, since `floor(1.6) = 1` — and
`d(i) = 4` for every `i ≥ 5`, in particular `d(100) = 4`. -/
theorem difficulty_schedule_amended :
    calculateDifficulty 0 = 2 ∧ calculateDifficulty 1 = 2 ∧ calculateDifficulty 2 = 2 ∧
    calculateDifficulty 3 = 3 ∧ calculateDifficulty 4 = 3 ∧ calculateDifficulty 100 = 4 ∧
    ∀ i, 5 ≤ i → calculateDifficulty i = 4 := by
  refine ⟨by decide, by decide, by decide, by decide, by decide, by decide, ?_⟩
  intro i hi
  unfold calculateDifficulty
  have h2 : 2 ≤ 2 * i / 5 := by
    rw [Nat.le_div_iff_mul_le (by norm_num)]
    omega
  omega

/-- Witness for `difficulty_schedule_amended` at the concrete index 7. -/
theorem difficulty_schedule_amended_witness : calculateDifficulty 7 = 4 :=
  difficulty_schedule_amended.2.2.2.2.2.2 7 (by decide)

/-- Counterexample to C2 as stated: the claimed value `d(4) = 4` is false;
the schedule yields 3 at index 4. -/
theorem difficulty_value_at_four :
    calculateDifficulty 4 = 3 ∧ (calculateDifficulty 4 == 4) = false := by decide

/-! ## Claim C9: checksum idempotence -/

/-- C9: `generateChecksumAddress` is idempotent on every address matching
`^xe_[a-fA-F0-9]{40}$` (the proof in fact never needs the regex: the
checksum loop only uppercases, which does not change the lowercased body
the hash is computed from). -/
theorem checksum_idempotence (a : String) (h : matchesAddressRegex a = true) :
    generateChecksumAddress (generateChecksumAddress a) = generateChecksumAddress a :=
  generateChecksumAddress_idem a

/-- Witness for `checksum_idempotence` at a concrete address. -/
theorem checksum_idempotence_witness :
    matchesAddressRegex addrSample = true ∧
    generateChecksumAddress (generateChecksumAddress addrSample)
      = generateChecksumAddress addrSample :=
  ⟨by decide, checksum_idempotence addrSample (by decide)⟩

/-! ## Claim C4: checksum body characters -/

/-- C4 (amended): for an address of the form `xe_` + 40 hex characters in
any case, body character `j` of the checksummed output is the uppercased
input character when hex digit `j` of `keccak256` of the lowercased body is
at least 8, and otherwise is the input character *unchanged* — the original
case, not the lowercased character the claim states (the code's else branch
appends `addr[i]`, not `addr[i].toLowerCase()`). -/
theorem checksum_body_chars_amended (a : String) (h : matchesAddressRegex a = true) :
    ∀ j c, (a.data.drop 3).get? j = some c →
      (generateChecksumAddress a).data.get? (j + 3) =
        some (if 8 ≤ checksumHashDigit a j then c.toUpper else c) := by
  intro j c hget
  have hchk : (generateChecksumAddress a).data
      = 'x' :: 'e' :: '_' :: checksumChars (a.data.drop 3)
          (keccak256 (String.mk ((a.data.drop 3).map Char.toLower))).data := rfl
  have hidx : ('x' :: 'e' :: '_' :: checksumChars (a.data.drop 3)
      (keccak256 (String.mk ((a.data.drop 3).map Char.toLower))).data).get? (j + 3)
      = (checksumChars (a.data.drop 3)
          (keccak256 (String.mk ((a.data.drop 3).map Char.toLower))).data).get? j := rfl
  rw [hchk, hidx, checksumChars_get?, hget]
  rfl

/-- Witness for `checksum_body_chars_amended` at a concrete address and
position. -/
theorem checksum_body_chars_amended_witness :
    matchesAddressRegex addrSample = true ∧
    (addrSample.data.drop 3).get? 0 = some 'a' ∧
    (generateChecksumAddress addrSample).data.get? 3 =
      some (if 8 ≤ checksumHashDigit addrSample 0 then 'a'.toUpper else 'a') :=
  ⟨by decide, by decide,
    checksum_body_chars_amended addrSample (by decide) 0 'a' (by decide)⟩

/-- Counterexample to C4 as stated: on an all-uppercase body, the character
at body position 4 (string index 7) has checksum hash digit `2 < 8`, and the
output keeps the original uppercase `C` instead of the claimed lowercase
`c`. -/
theorem checksum_body_char_case_preserved :
    matchesAddressRegex addrSampleUpper = true ∧
    checksumHashDigit addrSampleUpper 4 < 8 ∧
    addrSampleUpper.data.getD 7 ' ' = 'C' ∧
    (generateChecksumAddress addrSampleUpper).data.getD 7 ' ' = 'C' ∧
    (((generateChecksumAddress addrSampleUpper).data.getD 7 ' ')
      == Char.toLower (addrSampleUpper.data.getD 7 ' ')) = false := by decide

/-! ## Claim C3: checksum validation -/

/-- C3 (amended): `checksumAddressIsValid (generateChecksumAddress a)` holds
for every regex-matching `a`; and flipping the case of a body character that
the checksum forced to uppercase (hash digit ≥ 8, alphabetic) makes
validation fail.  Flipping a lowercase character to uppercase, however, can
leave the address valid (see the counterexample), because re-running the
checksum preserves the case of characters at positions with hash digit
< 8. -/
theorem checksum_validation_amended (a : String) (h : matchesAddressRegex a = true) :
    checksumAddressIsValid (generateChecksumAddress a) = true ∧
    ∀ j c, (a.data.drop 3).get? j = some c → c.isAlpha = true →
      8 ≤ checksumHashDigit a j →
      checksumAddressIsValid (flipCaseAt (generateChecksumAddress a) (j + 3)) = false := by
  refine ⟨checksumAddressIsValid_gga h, ?_⟩
  intro j c hget halpha hdig
  have hdigit : (((keccak256 (String.mk ((a.data.drop 3).map Char.toLower))).data.get? j).bind
      hexDigitVal).getD 0 = checksumHashDigit a j := rfl
  -- the checksummed character at body position j is the uppercased input
  have hchkj : (checksumChars (a.data.drop 3)
      (keccak256 (String.mk ((a.data.drop 3).map Char.toLower))).data).get? j
      = some c.toUpper := by
    rw [checksumChars_get?, hget]
    simp only [Option.map_some']
    rw [hdigit, if_pos hdig]
  -- data of the flipped address
  have hflip : (flipCaseAt (generateChecksumAddress a) (j + 3)).data
      = 'x' :: 'e' :: '_' :: flipListAt j (checksumChars (a.data.drop 3)
          (keccak256 (String.mk ((a.data.drop 3).map Char.toLower))).data) := rfl
  -- the flipped character is the lowercased input
  have hflipj : (flipListAt j (checksumChars (a.data.drop 3)
      (keccak256 (String.mk ((a.data.drop 3).map Char.toLower))).data)).get? j
      = some c.toLower := by
    rw [flipListAt_get?_self, hchkj]
    simp only [Option.map_some']
    rw [flipCase_toUpper_of_isAlpha halpha]
  -- the hash recomputed from the flipped address is unchanged
  have hlow : (flipListAt j (checksumChars (a.data.drop 3)
      (keccak256 (String.mk ((a.data.drop 3).map Char.toLower))).data)).map Char.toLower
      = (a.data.drop 3).map Char.toLower := by
    rw [flipListAt_map_toLower, checksumChars_map_toLower]
  -- re-checksumming the flipped address restores the uppercase character
  have hrej : (generateChecksumAddress
      (flipCaseAt (generateChecksumAddress a) (j + 3))).data.get? (j + 3)
      = some c.toUpper := by
    rw [generateChecksumAddress_eq]
    show ((checksumChars ((flipCaseAt (generateChecksumAddress a) (j + 3)).data.drop 3)
      (keccak256 (String.mk (((flipCaseAt (generateChecksumAddress a) (j + 3)).data.drop 3).map
        Char.toLower))).data)).get? j = some c.toUpper
    have hdrop : (flipCaseAt (generateChecksumAddress a) (j + 3)).data.drop 3
        = flipListAt j (checksumChars (a.data.drop 3)
            (keccak256 (String.mk ((a.data.drop 3).map Char.toLower))).data) := by
      rw [hflip]
      rfl
    rw [hdrop, hlow, checksumChars_get?, hflipj]
    simp only [Option.map_some']
    rw [hdigit, if_pos hdig, toUpper_toLower]
  -- so the flipped address is not its own checksum
  have hne : flipCaseAt (generateChecksumAddress a) (j + 3)
      ≠ generateChecksumAddress (flipCaseAt (generateChecksumAddress a) (j + 3)) := by
    intro heq
    have hcontra := congrArg (fun s => s.data.get? (j + 3)) heq
    simp only at hcontra
    rw [hrej] at hcontra
    have hself : (flipCaseAt (generateChecksumAddress a) (j + 3)).data.get? (j + 3)
        = some c.toLower := by
      rw [hflip]
      exact hflipj
    rw [hself] at hcontra
    have := Option.some.inj hcontra
    exact toUpper_ne_toLower_of_isAlpha halpha this.symm
  -- hence validation fails, whatever the regex test says
  cases hreg : matchesAddressRegex (flipCaseAt (generateChecksumAddress a) (j + 3)) with
  | false =>
    rw [checksumAddressIsValid, hreg]
    rfl
  | true =>
    rw [checksumAddressIsValid, hreg]
    have hbeq : (flipCaseAt (generateChecksumAddress a) (j + 3)
        == generateChecksumAddress (flipCaseAt (generateChecksumAddress a) (j + 3))) = false :=
      beq_eq_false_iff_ne.mpr hne
    rw [hbeq]
    rfl

/-- Witness for `checksum_validation_amended`: concrete address, concrete
uppercase-forced position (body position 0, hash digit 14). -/
theorem checksum_validation_amended_witness :
    matchesAddressRegex addrSample = true ∧
    checksumAddressIsValid (generateChecksumAddress addrSample) = true ∧
    checksumAddressIsValid (flipCaseAt (generateChecksumAddress addrSample) 3) = false := by
  have h := checksum_validation_amended addrSample (by decide)
  exact ⟨by decide, h.1, h.2 0 'a' (by decide) (by decide) (by decide)⟩

/-- Counterexample to C3 as stated: flipping the case of exactly one
alphabetic character of a checksummed address (the lowercase `c` at index 7,
whose hash digit is below 8) leaves `checksumAddressIsValid` true. -/
theorem checksum_flip_stays_valid :
    generateChecksumAddress addrSample = "xe_A1B2c3D4e5f6a7b8c9d0a1B2c3d4e5f6A7B8C9d0" ∧
    flipCaseAt "xe_A1B2c3D4e5f6a7b8c9d0a1B2c3d4e5f6A7B8C9d0" 7
      = "xe_A1B2C3D4e5f6a7b8c9d0a1B2c3d4e5f6A7B8C9d0" ∧
    ("xe_A1B2c3D4e5f6a7b8c9d0a1B2c3d4e5f6A7B8C9d0".data.getD 7 ' ').isAlpha = true ∧
    checksumAddressIsValid "xe_A1B2C3D4e5f6a7b8c9d0a1B2c3d4e5f6A7B8C9d0" = true := by
  refine ⟨by decide, by decide, by decide, by decide⟩

end EdgeUtils
